import Mathlib

/-!
Verification of the CBOR error-reason decoder and the Haskell-Show
compatible renderer of the blockfrost-platform repository.

The development shallowly embeds the relevant Rust code:

  - src/cbor/codec.rs            (wire decoder implementations)
  - src/cbor/haskell_types.rs    (data types and Display implementations)
  - src/cbor/haskell_display.rs  (HaskellDisplay renderer)
  - src/cbor/haskells_show_string.rs (text escaper)
  - src/node/transactions.rs     (submission facade)

Byte streams are lists of natural numbers below 256; a decoding step is a
function from the remaining input to either a structured error message or
a value paired with the rest of the input, mirroring the
position-advancing minicbor decoder used by the Rust source.  The
primitive readers in the first section model the minicbor library
primitives that the repository calls (array, u16, u64, bytes, tag,
probe().datatype(), array_iter); minicbor is an external dependency, so
these are modelled from the CBOR encoding it implements.
-/

namespace Blockfrost

/-- Byte of the wire input, represented as a natural number below 256. -/
abbrev Byte := Nat

/-- Decoding step: from the remaining input, either a structured error
message or a value together with the not-yet-consumed input. -/
abbrev Dec (α : Type) : Type := List Byte → Except String (α × List Byte)

/-- Failing decoding step with a structured error message. -/
def decFail (msg : String) : Dec α := fun _ => .error msg

/-- Decoding step that consumes nothing and returns a value. -/
def decPure (a : α) : Dec α := fun s => .ok (a, s)

/-- Sequencing of decoding steps; an error short-circuits, mirroring the
question-mark operator of the Rust source. -/
def decBind (x : Dec α) (f : α → Dec β) : Dec β := fun s =>
  match x s with
  | .error e => .error e
  | .ok (a, s1) => f a s1

/-- Read one byte from the input. -/
def readByte : Dec Byte := fun s =>
  match s with
  | [] => .error "end of input"
  | b :: rest => .ok (b, rest)

/-- Read a fixed number of bytes from the input. -/
def readChunk (n : Nat) : Dec (List Byte) := fun s =>
  if n ≤ s.length then .ok (s.take n, s.drop n) else .error "end of input"

/-- Big-endian value of a byte sequence. -/
def beValue (bs : List Byte) : Nat := bs.foldl (fun a b => a * 256 + b) 0

/-- Read a big-endian unsigned integer of the given byte width. -/
def readBE (n : Nat) : Dec Nat := decBind (readChunk n) (fun bs => decPure (beValue bs))

/-- Model of the minicbor u8 reader: major type 0 with at most a one-byte
argument. -/
def u8dec : Dec Nat := decBind readByte fun h =>
  if h ≤ 0x17 then decPure h
  else if h = 0x18 then readBE 1
  else decFail "unexpected type while decoding u8"

/-- Model of the minicbor u16 reader: major type 0 with at most a two-byte
argument. -/
def u16dec : Dec Nat := decBind readByte fun h =>
  if h ≤ 0x17 then decPure h
  else if h = 0x18 then readBE 1
  else if h = 0x19 then readBE 2
  else decFail "unexpected type while decoding u16"

/-- Model of the minicbor u64 reader: major type 0 with up to an
eight-byte argument. -/
def u64dec : Dec Nat := decBind readByte fun h =>
  if h ≤ 0x17 then decPure h
  else if h = 0x18 then readBE 1
  else if h = 0x19 then readBE 2
  else if h = 0x1a then readBE 4
  else if h = 0x1b then readBE 8
  else decFail "unexpected type while decoding u64"

/-- Model of the minicbor i8 reader. -/
def i8dec : Dec Int := decBind readByte fun h =>
  if h ≤ 0x17 then decPure (Int.ofNat h)
  else if h = 0x18 then
    decBind (readBE 1) fun n =>
      if n ≤ 127 then decPure (Int.ofNat n) else decFail "overflow while decoding i8"
  else if 0x20 ≤ h ∧ h ≤ 0x37 then decPure (-1 - Int.ofNat (h - 0x20))
  else if h = 0x38 then
    decBind (readBE 1) fun n =>
      if n ≤ 127 then decPure (-1 - Int.ofNat n) else decFail "overflow while decoding i8"
  else decFail "unexpected type while decoding i8"

/-- Model of the minicbor array-header reader: returns the length of a
definite-length array, or none for an indefinite-length array. -/
def arrayHeaderDec : Dec (Option Nat) := decBind readByte fun h =>
  if 0x80 ≤ h ∧ h ≤ 0x97 then decPure (some (h - 0x80))
  else if h = 0x98 then decBind (readBE 1) (fun n => decPure (some n))
  else if h = 0x99 then decBind (readBE 2) (fun n => decPure (some n))
  else if h = 0x9a then decBind (readBE 4) (fun n => decPure (some n))
  else if h = 0x9b then decBind (readBE 8) (fun n => decPure (some n))
  else if h = 0x9f then decPure none
  else decFail "unexpected type while decoding array"

/-- Model of the minicbor map-header reader. -/
def mapHeaderDec : Dec (Option Nat) := decBind readByte fun h =>
  if 0xa0 ≤ h ∧ h ≤ 0xb7 then decPure (some (h - 0xa0))
  else if h = 0xb8 then decBind (readBE 1) (fun n => decPure (some n))
  else if h = 0xb9 then decBind (readBE 2) (fun n => decPure (some n))
  else if h = 0xba then decBind (readBE 4) (fun n => decPure (some n))
  else if h = 0xbb then decBind (readBE 8) (fun n => decPure (some n))
  else if h = 0xbf then decPure none
  else decFail "unexpected type while decoding map"

/-- Model of the minicbor tag reader: major type 6. -/
def tagDec : Dec Nat := decBind readByte fun h =>
  if 0xc0 ≤ h ∧ h ≤ 0xd7 then decPure (h - 0xc0)
  else if h = 0xd8 then readBE 1
  else if h = 0xd9 then readBE 2
  else if h = 0xda then readBE 4
  else if h = 0xdb then readBE 8
  else decFail "unexpected type while decoding tag"

/-- Model of the minicbor bytes reader: a definite-length byte string. -/
def bytesDec : Dec (List Byte) := decBind readByte fun h =>
  if 0x40 ≤ h ∧ h ≤ 0x57 then readChunk (h - 0x40)
  else if h = 0x58 then decBind (readBE 1) readChunk
  else if h = 0x59 then decBind (readBE 2) readChunk
  else if h = 0x5a then decBind (readBE 4) readChunk
  else if h = 0x5b then decBind (readBE 8) readChunk
  else decFail "unexpected type while decoding bytes"

/-- Decode a fixed number of consecutive items. -/
def decodeListN (d : Dec α) : Nat → Dec (List α)
  | 0 => decPure []
  | n + 1 => decBind d fun a => decBind (decodeListN d n) fun as => decPure (a :: as)

/-- Decode items of an indefinite-length array until the break byte; the
fuel argument bounds the iteration by the remaining input length. -/
def decodeListIndef (d : Dec α) : Nat → Dec (List α)
  | 0 => decFail "end of input"
  | fuel + 1 => fun s =>
    match s with
    | 0xff :: rest => .ok ([], rest)
    | _ => decBind d (fun a => decBind (decodeListIndef d fuel) fun as => decPure (a :: as)) s

/-- Model of the minicbor array_iter collection: an array header followed
by its elements, mirroring the Vec and array_iter decoding of the
source. -/
def arrayIterDec (d : Dec α) : Dec (List α) := fun s =>
  match arrayHeaderDec s with
  | .error e => .error e
  | .ok (some n, s1) => decodeListN d n s1
  | .ok (none, s1) => decodeListIndef d (s1.length + 1) s1

/-- Model of the minicbor Type enumeration returned by datatype(). -/
inductive CborType where
  | U8 | U16 | U32 | U64
  | I8 | I16 | I32 | I64
  | Bytes | BytesIndef
  | TStr | TStrIndef
  | TArray | ArrayIndef
  | TMap | MapIndef
  | Tag | Simple | TBool | Null | Undefined
  | F16 | F32 | F64 | Break
  | Unknown (b : Nat)
deriving DecidableEq

/-- Debug rendering of the minicbor Type enumeration, as interpolated by
the Rust source into error messages. -/
def cborTypeDebugStr : CborType → String
  | .U8 => "U8"
  | .U16 => "U16"
  | .U32 => "U32"
  | .U64 => "U64"
  | .I8 => "I8"
  | .I16 => "I16"
  | .I32 => "I32"
  | .I64 => "I64"
  | .Bytes => "Bytes"
  | .BytesIndef => "BytesIndef"
  | .TStr => "String"
  | .TStrIndef => "StringIndef"
  | .TArray => "Array"
  | .ArrayIndef => "ArrayIndef"
  | .TMap => "Map"
  | .MapIndef => "MapIndef"
  | .Tag => "Tag"
  | .Simple => "Simple"
  | .TBool => "Bool"
  | .Null => "Null"
  | .Undefined => "Undefined"
  | .F16 => "F16"
  | .F32 => "F32"
  | .F64 => "F64"
  | .Break => "Break"
  | .Unknown b => "Unknown(" ++ toString b ++ ")"

/-- Classification of an initial byte, modelling minicbor Type::read. -/
def typeOfByte (b : Nat) : CborType :=
  if b ≤ 0x18 then .U8
  else if b = 0x19 then .U16
  else if b = 0x1a then .U32
  else if b = 0x1b then .U64
  else if 0x20 ≤ b ∧ b ≤ 0x38 then .I8
  else if b = 0x39 then .I16
  else if b = 0x3a then .I32
  else if b = 0x3b then .I64
  else if 0x40 ≤ b ∧ b ≤ 0x5b then .Bytes
  else if b = 0x5f then .BytesIndef
  else if 0x60 ≤ b ∧ b ≤ 0x7b then .TStr
  else if b = 0x7f then .TStrIndef
  else if 0x80 ≤ b ∧ b ≤ 0x9b then .TArray
  else if b = 0x9f then .ArrayIndef
  else if 0xa0 ≤ b ∧ b ≤ 0xbb then .TMap
  else if b = 0xbf then .MapIndef
  else if 0xc0 ≤ b ∧ b ≤ 0xdb then .Tag
  else if 0xe0 ≤ b ∧ b ≤ 0xf3 then .Simple
  else if b = 0xf4 ∨ b = 0xf5 then .TBool
  else if b = 0xf6 then .Null
  else if b = 0xf7 then .Undefined
  else if b = 0xf8 then .Simple
  else if b = 0xf9 then .F16
  else if b = 0xfa then .F32
  else if b = 0xfb then .F64
  else if b = 0xff then .Break
  else .Unknown b

/-- Model of probe().datatype(): classify the next item without consuming
any input. -/
def datatypeDec : Dec CborType := fun s =>
  match s with
  | [] => .error "end of input"
  | b :: rest => .ok (typeOfByte b, b :: rest)

/-- Big-endian byte representation of a value in a fixed width. -/
def toBE : Nat → Nat → List Byte
  | 0, _ => []
  | k + 1, n => toBE k (n / 256) ++ [n % 256]

/-- Canonical CBOR head encoding for a major type and argument value. -/
def encHead (major : Nat) (n : Nat) : List Byte :=
  if n ≤ 0x17 then [32 * major + n]
  else if n < 256 then (32 * major + 0x18) :: toBE 1 n
  else if n < 65536 then (32 * major + 0x19) :: toBE 2 n
  else if n < 4294967296 then (32 * major + 0x1a) :: toBE 4 n
  else (32 * major + 0x1b) :: toBE 8 n

/-- Canonical encoding of an unsigned integer. -/
def encUInt (n : Nat) : List Byte := encHead 0 n

/-- Canonical encoding of a definite-length array header. -/
def encArray (n : Nat) : List Byte := encHead 4 n

/-- Canonical encoding of a tag head. -/
def encTag (n : Nat) : List Byte := encHead 6 n

/-- Canonical encoding of a definite-length byte string. -/
def encBytes (bs : List Byte) : List Byte := encHead 2 bs.length ++ bs

theorem toBE_length (k n : Nat) : (toBE k n).length = k := by
  induction k generalizing n with
  | zero => simp [toBE]
  | succ k ih => simp [toBE, ih]

theorem beValue_toBE (k n : Nat) (h : n < 256 ^ k) : beValue (toBE k n) = n := by
  induction k generalizing n with
  | zero => simp [toBE, beValue]; omega
  | succ k ih =>
    have hdiv : n / 256 < 256 ^ k := by
      rw [Nat.div_lt_iff_lt_mul (by norm_num)]
      calc n < 256 ^ (k + 1) := h
        _ = 256 ^ k * 256 := by ring
    simp only [toBE, beValue, List.foldl_append]
    have := ih (n / 256) hdiv
    simp only [beValue] at this
    simp [this]
    omega

theorem decBind_ok {x : Dec α} {f : α → Dec β} {s s1 : List Byte} {a : α}
    (h : x s = .ok (a, s1)) : decBind x f s = f a s1 := by
  unfold decBind
  rw [h]

theorem decBind_err {x : Dec α} {f : α → Dec β} {s : List Byte} {e : String}
    (h : x s = .error e) : decBind x f s = .error e := by
  unfold decBind
  rw [h]

theorem take_append_of_length (l1 l2 : List α) (k : Nat) (h : l1.length = k) :
    (l1 ++ l2).take k = l1 := by
  subst h
  exact List.take_left l1 l2

theorem drop_append_of_length (l1 l2 : List α) (k : Nat) (h : l1.length = k) :
    (l1 ++ l2).drop k = l2 := by
  subst h
  exact List.drop_left l1 l2

theorem readChunk_append (l1 l2 : List Byte) (k : Nat) (h : l1.length = k) :
    readChunk k (l1 ++ l2) = .ok (l1, l2) := by
  unfold readChunk
  rw [if_pos (by simp; omega)]
  rw [take_append_of_length l1 l2 k h, drop_append_of_length l1 l2 k h]

theorem readBE_enc (k n : Nat) (rest : List Byte) (h : n < 256 ^ k) :
    readBE k (toBE k n ++ rest) = .ok (n, rest) := by
  unfold readBE
  rw [decBind_ok (readChunk_append (toBE k n) rest k (toBE_length k n))]
  simp [decPure, beValue_toBE k n h]

theorem u16dec_enc (n : Nat) (rest : List Byte) (h : n < 65536) :
    u16dec (encUInt n ++ rest) = .ok (n, rest) := by
  unfold encUInt encHead
  split_ifs with h1 h2
  · simp only [List.cons_append, List.nil_append]
    unfold u16dec
    rw [decBind_ok (show readByte ((32 * 0 + n) :: rest) = .ok (32 * 0 + n, rest) from rfl)]
    rw [if_pos (show 32 * 0 + n ≤ 0x17 by omega)]
    simp [decPure]
  · simp only [List.cons_append]
    show readBE 1 (toBE 1 n ++ rest) = .ok (n, rest)
    exact readBE_enc 1 n rest (by omega)
  · simp only [List.cons_append]
    show readBE 2 (toBE 2 n ++ rest) = .ok (n, rest)
    exact readBE_enc 2 n rest (by omega)

theorem u64dec_enc (n : Nat) (rest : List Byte) (h : n < 18446744073709551616) :
    u64dec (encUInt n ++ rest) = .ok (n, rest) := by
  unfold encUInt encHead
  split_ifs with h1 h2 h3 h4
  · simp only [List.cons_append, List.nil_append]
    unfold u64dec
    rw [decBind_ok (show readByte ((32 * 0 + n) :: rest) = .ok (32 * 0 + n, rest) from rfl)]
    rw [if_pos (show 32 * 0 + n ≤ 0x17 by omega)]
    simp [decPure]
  · simp only [List.cons_append]
    show readBE 1 (toBE 1 n ++ rest) = .ok (n, rest)
    exact readBE_enc 1 n rest (by omega)
  · simp only [List.cons_append]
    show readBE 2 (toBE 2 n ++ rest) = .ok (n, rest)
    exact readBE_enc 2 n rest (by omega)
  · simp only [List.cons_append]
    show readBE 4 (toBE 4 n ++ rest) = .ok (n, rest)
    exact readBE_enc 4 n rest (by omega)
  · simp only [List.cons_append]
    show readBE 8 (toBE 8 n ++ rest) = .ok (n, rest)
    exact readBE_enc 8 n rest (by omega)

theorem arrayHeaderDec_enc (n : Nat) (rest : List Byte) (h : n < 18446744073709551616) :
    arrayHeaderDec (encArray n ++ rest) = .ok (some n, rest) := by
  unfold encArray encHead
  split_ifs with h1 h2 h3 h4
  · simp only [List.cons_append, List.nil_append]
    unfold arrayHeaderDec
    rw [decBind_ok (show readByte ((32 * 4 + n) :: rest) = .ok (32 * 4 + n, rest) from rfl)]
    rw [if_pos (show 0x80 ≤ 32 * 4 + n ∧ 32 * 4 + n ≤ 0x97 by omega)]
    simp [decPure]
  · simp only [List.cons_append]
    show decBind (readBE 1) (fun m => decPure (some m)) (toBE 1 n ++ rest) = .ok (some n, rest)
    rw [decBind_ok (readBE_enc 1 n rest (by omega))]
    rfl
  · simp only [List.cons_append]
    show decBind (readBE 2) (fun m => decPure (some m)) (toBE 2 n ++ rest) = .ok (some n, rest)
    rw [decBind_ok (readBE_enc 2 n rest (by omega))]
    rfl
  · simp only [List.cons_append]
    show decBind (readBE 4) (fun m => decPure (some m)) (toBE 4 n ++ rest) = .ok (some n, rest)
    rw [decBind_ok (readBE_enc 4 n rest (by omega))]
    rfl
  · simp only [List.cons_append]
    show decBind (readBE 8) (fun m => decPure (some m)) (toBE 8 n ++ rest) = .ok (some n, rest)
    rw [decBind_ok (readBE_enc 8 n rest (by omega))]
    rfl

theorem tagDec_enc (n : Nat) (rest : List Byte) (h : n < 18446744073709551616) :
    tagDec (encTag n ++ rest) = .ok (n, rest) := by
  unfold encTag encHead
  split_ifs with h1 h2 h3 h4
  · simp only [List.cons_append, List.nil_append]
    unfold tagDec
    rw [decBind_ok (show readByte ((32 * 6 + n) :: rest) = .ok (32 * 6 + n, rest) from rfl)]
    rw [if_pos (show 0xc0 ≤ 32 * 6 + n ∧ 32 * 6 + n ≤ 0xd7 by omega)]
    simp [decPure]
  · simp only [List.cons_append]
    show readBE 1 (toBE 1 n ++ rest) = .ok (n, rest)
    exact readBE_enc 1 n rest (by omega)
  · simp only [List.cons_append]
    show readBE 2 (toBE 2 n ++ rest) = .ok (n, rest)
    exact readBE_enc 2 n rest (by omega)
  · simp only [List.cons_append]
    show readBE 4 (toBE 4 n ++ rest) = .ok (n, rest)
    exact readBE_enc 4 n rest (by omega)
  · simp only [List.cons_append]
    show readBE 8 (toBE 8 n ++ rest) = .ok (n, rest)
    exact readBE_enc 8 n rest (by omega)

theorem bytesDec_enc (bs rest : List Byte) (h : bs.length < 18446744073709551616) :
    bytesDec (encBytes bs ++ rest) = .ok (bs, rest) := by
  unfold encBytes encHead
  split_ifs with h1 h2 h3 h4
  · simp only [List.append_assoc, List.cons_append, List.nil_append]
    unfold bytesDec
    rw [decBind_ok
      (show readByte ((32 * 2 + bs.length) :: (bs ++ rest)) =
        .ok (32 * 2 + bs.length, bs ++ rest) from rfl)]
    rw [if_pos (show 0x40 ≤ 32 * 2 + bs.length ∧ 32 * 2 + bs.length ≤ 0x57 by omega)]
    exact readChunk_append bs rest _ (by omega)
  · simp only [List.append_assoc, List.cons_append]
    show decBind (readBE 1) readChunk (toBE 1 bs.length ++ (bs ++ rest)) = .ok (bs, rest)
    rw [decBind_ok (readBE_enc 1 bs.length (bs ++ rest) (by omega))]
    exact readChunk_append bs rest _ rfl
  · simp only [List.append_assoc, List.cons_append]
    show decBind (readBE 2) readChunk (toBE 2 bs.length ++ (bs ++ rest)) = .ok (bs, rest)
    rw [decBind_ok (readBE_enc 2 bs.length (bs ++ rest) (by omega))]
    exact readChunk_append bs rest _ rfl
  · simp only [List.append_assoc, List.cons_append]
    show decBind (readBE 4) readChunk (toBE 4 bs.length ++ (bs ++ rest)) = .ok (bs, rest)
    rw [decBind_ok (readBE_enc 4 bs.length (bs ++ rest) (by omega))]
    exact readChunk_append bs rest _ rfl
  · simp only [List.append_assoc, List.cons_append]
    show decBind (readBE 8) readChunk (toBE 8 bs.length ++ (bs ++ rest)) = .ok (bs, rest)
    rw [decBind_ok (readBE_enc 8 bs.length (bs ++ rest) (by omega))]
    exact readChunk_append bs rest _ rfl

/-! ## UTF-8 decoding, modelling the Rust str conversion used by the
minicbor String decoder. -/

/-- Decode a UTF-8 byte sequence into characters; none on invalid
input, mirroring the Rust str validity check. -/
def utf8Chars : List Byte → Option (List Char)
  | [] => some []
  | b :: rest =>
    if b ≤ 0x7f then
      (utf8Chars rest).map (fun cs => Char.ofNat b :: cs)
    else if 0xc2 ≤ b ∧ b ≤ 0xdf then
      match rest with
      | c1 :: rest1 =>
        if 0x80 ≤ c1 ∧ c1 ≤ 0xbf then
          (utf8Chars rest1).map (fun cs => Char.ofNat ((b - 0xc0) * 64 + (c1 - 0x80)) :: cs)
        else none
      | [] => none
    else if 0xe0 ≤ b ∧ b ≤ 0xef then
      match rest with
      | c1 :: c2 :: rest2 =>
        if (0x80 ≤ c1 ∧ c1 ≤ 0xbf) ∧ (0x80 ≤ c2 ∧ c2 ≤ 0xbf) then
          let cp := (b - 0xe0) * 4096 + (c1 - 0x80) * 64 + (c2 - 0x80)
          if 0x800 ≤ cp ∧ (cp < 0xd800 ∨ 0xe000 ≤ cp) then
            (utf8Chars rest2).map (fun cs => Char.ofNat cp :: cs)
          else none
        else none
      | _ => none
    else if 0xf0 ≤ b ∧ b ≤ 0xf4 then
      match rest with
      | c1 :: c2 :: c3 :: rest3 =>
        if (0x80 ≤ c1 ∧ c1 ≤ 0xbf) ∧ (0x80 ≤ c2 ∧ c2 ≤ 0xbf) ∧ (0x80 ≤ c3 ∧ c3 ≤ 0xbf) then
          let cp := (b - 0xf0) * 262144 + (c1 - 0x80) * 4096 + (c2 - 0x80) * 64 + (c3 - 0x80)
          if 0x10000 ≤ cp ∧ cp ≤ 0x10ffff then
            (utf8Chars rest3).map (fun cs => Char.ofNat cp :: cs)
          else none
        else none
      | _ => none
    else none

/-- Lift a UTF-8 conversion into a decoding step. -/
def utf8Lift (bs : List Byte) : Dec String := fun s =>
  match utf8Chars bs with
  | some cs => .ok (String.mk cs, s)
  | none => .error "invalid utf-8 while decoding str"

/-- Model of the minicbor String reader: a definite-length text string
whose bytes are checked as UTF-8. -/
def strDec : Dec String := decBind readByte fun h =>
  if 0x60 ≤ h ∧ h ≤ 0x77 then decBind (readChunk (h - 0x60)) utf8Lift
  else if h = 0x78 then decBind (readBE 1) (fun n => decBind (readChunk n) utf8Lift)
  else if h = 0x79 then decBind (readBE 2) (fun n => decBind (readChunk n) utf8Lift)
  else if h = 0x7a then decBind (readBE 4) (fun n => decBind (readChunk n) utf8Lift)
  else if h = 0x7b then decBind (readBE 8) (fun n => decBind (readChunk n) utf8Lift)
  else decFail "unexpected type while decoding str"

/-! ## Data types of the error taxonomy, from src/cbor/haskell_types.rs. -/

/-- ShelleyBasedEra, haskell_types.rs lines 105 to 113. -/
inductive ShelleyBasedEra where
  | ShelleyBasedEraShelley
  | ShelleyBasedEraAllegra
  | ShelleyBasedEraMary
  | ShelleyBasedEraAlonzo
  | ShelleyBasedEraBabbage
  | ShelleyBasedEraConway
deriving DecidableEq

/-- DisplayCoin, haskell_types.rs line 613: a newtype over the u64 Coin. -/
structure DisplayCoin where
  coin : Nat
deriving DecidableEq

/-- KeyHash, haskell_types.rs line 744: a transparent newtype over raw
bytes, decoded by the derived transparent Decode as a byte string. -/
structure KeyHash where
  bytes : List Byte
deriving DecidableEq

/-- Network, haskell_types.rs lines 536 to 540. -/
inductive Network where
  | Mainnet
  | Testnet
deriving DecidableEq

/-- Credential, haskell_types.rs lines 725 to 729. -/
inductive Credential where
  | ScriptHashObj (h : KeyHash)
  | KeyHashObj (h : KeyHash)
deriving DecidableEq

/-- ConwayGovCertPredFailure, haskell_types.rs lines 447 to 455. -/
inductive ConwayGovCertPredFailure where
  | ConwayDRepAlreadyRegistered (c : Credential)
  | ConwayDRepNotRegistered (c : Credential)
  | ConwayDRepIncorrectDeposit (c1 c2 : DisplayCoin)
  | ConwayCommitteeHasPreviouslyResigned (c : Credential)
  | ConwayDRepIncorrectRefund (c1 c2 : DisplayCoin)
  | ConwayCommitteeIsUnknown (c : Credential)
deriving DecidableEq

/-- DatumEnum, decoded in codec.rs lines 774 to 785.  Modelled from the
spec: the payload types of the DatumHash and Datum variants are not in
the sources, so both payloads are modelled as the decoded byte strings;
the claims about DatumEnum only concern its discriminant dispatch. -/
inductive DatumEnum where
  | DatumHash (h : List Byte)
  | Datum (d : List Byte)
  | NoDatum
deriving DecidableEq

/-- StrictMaybe, haskell_types.rs lines 624 to 627. -/
inductive StrictMaybe (α : Type) where
  | Just (v : α)
  | Nothing
deriving DecidableEq

/-- CustomSet258, haskell_types.rs line 815: the tag 258 finite-set
wrapper around an ordered sequence. -/
structure CustomSet258 (α : Type) where
  elems : List α
deriving DecidableEq

/-- CborBytes, the tag 24 embedded-document wrapper decoded in codec.rs
lines 821 to 836; its content type is the nested decoded value. -/
structure CborBytes (α : Type) where
  val : α
deriving DecidableEq

/-- PurposeAs, decoded in codec.rs lines 644 to 659.  Modelled from the
spec: the AsIx payload is the unsigned index and the AsItem payload is
the byte-string item; the claim about PurposeAs concerns only the probe
dispatch between the two decode paths. -/
inductive PurposeAs where
  | Ix (i : Nat)
  | Item (b : List Byte)
deriving DecidableEq

/-- RewardAccountFielded, haskell_types.rs lines 674 to 678. -/
structure RewardAccountFielded where
  raNetwork : Network
  raCredential : Credential
deriving DecidableEq

/-- ApplyConwayTxPredError, haskell_types.rs lines 120 to 128.  The
payload types of the three nested failure families are parameters: the
claims never exercise their decoders or renderers, and the theorems
about this enum hold for every choice of them. -/
inductive ApplyConwayTxPredError (α β γ : Type) where
  | ConwayUtxowFailure (e : α)
  | ConwayCertsFailure (e : β)
  | ConwayGovFailure (e : γ)
  | ConwayWdrlNotDelegatedToDRep (v : List KeyHash)
  | ConwayTreasuryValueMismatch (c1 c2 : DisplayCoin)
  | ConwayTxRefScriptsSizeTooBig (s1 s2 : Int)
  | ConwayMempoolFailure (s : String)

/-- ApplyTxError, haskell_types.rs line 116. -/
structure ApplyTxError (α β γ : Type) where
  errors : List (ApplyConwayTxPredError α β γ)

/-- TxValidationError, haskell_types.rs lines 92 to 102. -/
inductive TxValidationError (α β γ : Type) where
  | ByronTxValidationError (error : ApplyTxError α β γ)
  | ShelleyTxValidationError (error : ApplyTxError α β γ) (era : ShelleyBasedEra)

/-- Lower-case hexadecimal digit. -/
def hexDigit (n : Nat) : Char :=
  if n < 10 then Char.ofNat (48 + n) else Char.ofNat (87 + n)

/-- Lower-case hexadecimal encoding of a byte sequence, modelling
hex::encode. -/
def hexEncode (bs : List Byte) : String :=
  String.join (bs.map (fun b => String.mk [hexDigit (b / 16), hexDigit (b % 16)]))

/-- Value of a hexadecimal digit character, none for a non-digit. -/
def hexDigitVal (c : Char) : Option Nat :=
  if '0' ≤ c ∧ c ≤ '9' then some (c.toNat - 48)
  else if 'a' ≤ c ∧ c ≤ 'f' then some (c.toNat - 87)
  else if 'A' ≤ c ∧ c ≤ 'F' then some (c.toNat - 55)
  else none

/-- Decode pairs of hexadecimal digits, none on odd length or invalid
digits, modelling hex::decode. -/
def hexDecodePairs : List Char → Option (List Byte)
  | [] => some []
  | c1 :: c2 :: rest =>
    match hexDigitVal c1, hexDigitVal c2 with
    | some h, some l => (hexDecodePairs rest).map (fun bs => (16 * h + l) :: bs)
    | _, _ => none
  | _ => none

/-- Hexadecimal decoding of a string, modelling hex::decode. -/
def hexDecode (s : String) : Option (List Byte) := hexDecodePairs s.data

/-- RewardAccountFielded::new, haskell_types.rs lines 680 to 696.  The
Rust constructor byte-slices the string at index 2 and unwraps the hex
decoding with expect; a none result models the panic raised when the
string is shorter than two bytes or the remainder is not valid
hexadecimal. -/
def rewardAccountFieldedNew (hex : String) : Option RewardAccountFielded :=
  let raNetwork := if hex.startsWith "e0" then Network.Testnet else Network.Mainnet
  if hex.length < 2 then none
  else
    match hexDecode (String.mk (hex.data.drop 2)) with
    | none => none
    | some bytes => some ⟨raNetwork, .KeyHashObj ⟨bytes⟩⟩

/-! ## Wire decoders, from src/cbor/codec.rs.  Every question-mark
propagation of the Rust source is an explicit match on the step
result. -/

/-- Decode for ShelleyBasedEra, codec.rs lines 599 to 619. -/
def decodeShelleyBasedEra : Dec ShelleyBasedEra := fun s =>
  match arrayHeaderDec s with
  | .error e => .error e
  | .ok (_, s) =>
    match u16dec s with
    | .error e => .error e
    | .ok (era, s) =>
      match era with
      | 1 => .ok (.ShelleyBasedEraShelley, s)
      | 2 => .ok (.ShelleyBasedEraAllegra, s)
      | 3 => .ok (.ShelleyBasedEraMary, s)
      | 4 => .ok (.ShelleyBasedEraAlonzo, s)
      | 5 => .ok (.ShelleyBasedEraBabbage, s)
      | 6 => .ok (.ShelleyBasedEraConway, s)
      | _ => .error ("unknown era while decoding ShelleyBasedEra: " ++ toString era)

/-- Decode for Network, codec.rs lines 539 to 552: no array header, just
the discriminant. -/
def decodeNetwork : Dec Network := fun s =>
  match u16dec s with
  | .error e => .error e
  | .ok (n, s) =>
    match n with
    | 0 => .ok (.Testnet, s)
    | 1 => .ok (.Mainnet, s)
    | _ => .error ("unknown network while decoding Network: " ++ toString n)

/-- Decode for DisplayCoin: derived transparent decode of the u64
Coin. -/
def decodeDisplayCoin : Dec DisplayCoin := fun s =>
  match u64dec s with
  | .error e => .error e
  | .ok (n, s) => .ok (DisplayCoin.mk n, s)

/-- Decode for KeyHash: derived transparent decode of the byte
string. -/
def decodeKeyHash : Dec KeyHash := fun s =>
  match bytesDec s with
  | .error e => .error e
  | .ok (b, s) => .ok (KeyHash.mk b, s)

/-- Decode for Credential, codec.rs lines 567 to 583. -/
def decodeCredential : Dec Credential := fun s =>
  match arrayHeaderDec s with
  | .error e => .error e
  | .ok (_, s) =>
    match u16dec s with
    | .error e => .error e
    | .ok (tag, s) =>
      match tag with
      | 0 =>
        match decodeKeyHash s with
        | .error e => .error e
        | .ok (h, s) => .ok (.KeyHashObj h, s)
      | 1 =>
        match decodeKeyHash s with
        | .error e => .error e
        | .ok (h, s) => .ok (.ScriptHashObj h, s)
      | _ => .error ("unknown tag while decoding Credential: " ++ toString tag)

/-- Decode for ConwayGovCertPredFailure, codec.rs lines 356 to 376. -/
def decodeConwayGovCertPredFailure : Dec ConwayGovCertPredFailure := fun s =>
  match arrayHeaderDec s with
  | .error e => .error e
  | .ok (_, s) =>
    match u16dec s with
    | .error e => .error e
    | .ok (err, s) =>
      match err with
      | 0 =>
        match decodeCredential s with
        | .error e => .error e
        | .ok (c, s) => .ok (.ConwayDRepAlreadyRegistered c, s)
      | 1 =>
        match decodeCredential s with
        | .error e => .error e
        | .ok (c, s) => .ok (.ConwayDRepNotRegistered c, s)
      | 2 =>
        match decodeDisplayCoin s with
        | .error e => .error e
        | .ok (c1, s) =>
          match decodeDisplayCoin s with
          | .error e => .error e
          | .ok (c2, s) => .ok (.ConwayDRepIncorrectDeposit c1 c2, s)
      | 3 =>
        match decodeCredential s with
        | .error e => .error e
        | .ok (c, s) => .ok (.ConwayCommitteeHasPreviouslyResigned c, s)
      | 4 =>
        match decodeDisplayCoin s with
        | .error e => .error e
        | .ok (c1, s) =>
          match decodeDisplayCoin s with
          | .error e => .error e
          | .ok (c2, s) => .ok (.ConwayDRepIncorrectRefund c1 c2, s)
      | 5 =>
        match decodeCredential s with
        | .error e => .error e
        | .ok (c, s) => .ok (.ConwayCommitteeIsUnknown c, s)
      | _ =>
        .error ("unknown error tag while decoding ConwayGovCertPredFailure: " ++ toString err)

/-- Decode for DatumEnum, codec.rs lines 774 to 785: discriminants 0 and
1 select the payload-carrying variants and every other discriminant
yields NoDatum. -/
def decodeDatumEnum : Dec DatumEnum := fun s =>
  match arrayHeaderDec s with
  | .error e => .error e
  | .ok (_, s) =>
    match u16dec s with
    | .error e => .error e
    | .ok (tag, s) =>
      match tag with
      | 0 =>
        match bytesDec s with
        | .error e => .error e
        | .ok (h, s) => .ok (.DatumHash h, s)
      | 1 =>
        match bytesDec s with
        | .error e => .error e
        | .ok (d, s) => .ok (.Datum d, s)
      | _ => .ok (.NoDatum, s)

/-- Decode for StrictMaybe, codec.rs lines 554 to 566: the array-header
length alone selects the present case, and only one element is then
decoded. -/
def decodeStrictMaybe (d : Dec α) : Dec (StrictMaybe α) := fun s =>
  match arrayHeaderDec s with
  | .error e => .error e
  | .ok (arr, s) =>
    match arr with
    | some len =>
      if 0 < len then
        match d s with
        | .error e => .error e
        | .ok (v, s) => .ok (.Just v, s)
      else .ok (.Nothing, s)
    | none => .ok (.Nothing, s)

/-- Decode for CustomSet258, codec.rs lines 805 to 819: the leading tag
must be 258, and the wrapped content is decoded as the ordered sequence
of elements. -/
def decodeCustomSet258 (d : Dec α) : Dec (CustomSet258 α) := fun s =>
  match tagDec s with
  | .error e => .error e
  | .ok (tag, s) =>
    if tag ≠ 258 then
      .error ("unexpected tag while decoding CustomSet258: " ++ toString tag)
    else
      match arrayIterDec d s with
      | .error e => .error e
      | .ok (v, s) => .ok (CustomSet258.mk v, s)

/-- Decode for CborBytes, codec.rs lines 821 to 836: the leading tag must
be 24, and the wrapped content is decoded by the nested decoder.  The
error message of the source reuses the CustomSet258 wording. -/
def decodeCborBytes (d : Dec α) : Dec (CborBytes α) := fun s =>
  match tagDec s with
  | .error e => .error e
  | .ok (tag, s) =>
    if tag ≠ 24 then
      .error ("unexpected tag while decoding CustomSet258: " ++ toString tag)
    else
      match d s with
      | .error e => .error e
      | .ok (v, s) => .ok (CborBytes.mk v, s)

/-- Embedded-document decoding as used at codec.rs lines 691 to 694: a
CborBytes wrapper around a byte string whose content is handed to an
independent top-level decode call starting at position zero of the
wrapped bytes. -/
def decodeEmbeddedDocument (d : Dec α) : Dec α := fun s =>
  match decodeCborBytes bytesDec s with
  | .error e => .error e
  | .ok (inner, s) =>
    match d inner.val with
    | .error e => .error e
    | .ok (v, _) => .ok (v, s)

/-- Decode for PurposeAs, codec.rs lines 644 to 659: probe the type of
the next value without consuming it, then select the index or the item
decode path. -/
def decodePurposeAs : Dec PurposeAs := fun s =>
  match datatypeDec s with
  | .error e => .error e
  | .ok (tp, s) =>
    match tp with
    | .U8 =>
      match u64dec s with
      | .error e => .error e
      | .ok (i, s) => .ok (.Ix i, s)
    | .Bytes =>
      match bytesDec s with
      | .error e => .error e
      | .ok (b, s) => .ok (.Item b, s)
    | _ => .error ("unknown datatype while decoding PurposeAs: " ++ cborTypeDebugStr tp)

/-- Decode for RewardAccountFielded, codec.rs lines 585 to 590: the byte
string is hex-encoded and passed to RewardAccountFielded::new.  A none
result models a panic escaping the constructor (string slicing or hex
expectation), which is not a structured decode failure. -/
def decodeRewardAccountFielded : Dec (Option RewardAccountFielded) := fun s =>
  match bytesDec s with
  | .error e => .error e
  | .ok (b, s) => .ok (rewardAccountFieldedNew (hexEncode b), s)

/-- Decode for ApplyConwayTxPredError, codec.rs lines 43 to 65,
parametric in the decoders of the three nested failure families. -/
def decodeApplyConwayTxPredError (da : Dec α) (db : Dec β) (dc : Dec γ) :
    Dec (ApplyConwayTxPredError α β γ) := fun s =>
  match arrayHeaderDec s with
  | .error e => .error e
  | .ok (_, s) =>
    match u16dec s with
    | .error e => .error e
    | .ok (err, s) =>
      match err with
      | 1 =>
        match da s with
        | .error e => .error e
        | .ok (v, s) => .ok (.ConwayUtxowFailure v, s)
      | 2 =>
        match db s with
        | .error e => .error e
        | .ok (v, s) => .ok (.ConwayCertsFailure v, s)
      | 3 =>
        match dc s with
        | .error e => .error e
        | .ok (v, s) => .ok (.ConwayGovFailure v, s)
      | 4 =>
        match arrayIterDec decodeKeyHash s with
        | .error e => .error e
        | .ok (v, s) => .ok (.ConwayWdrlNotDelegatedToDRep v, s)
      | 5 =>
        match decodeDisplayCoin s with
        | .error e => .error e
        | .ok (c1, s) =>
          match decodeDisplayCoin s with
          | .error e => .error e
          | .ok (c2, s) => .ok (.ConwayTreasuryValueMismatch c1 c2, s)
      | 6 =>
        match i8dec s with
        | .error e => .error e
        | .ok (s1, s) =>
          match i8dec s with
          | .error e => .error e
          | .ok (s2, s) => .ok (.ConwayTxRefScriptsSizeTooBig s1 s2, s)
      | 7 =>
        match strDec s with
        | .error e => .error e
        | .ok (v, s) => .ok (.ConwayMempoolFailure v, s)
      | _ => .error ("unknown error tag while decoding ApplyTxPredError: " ++ toString err)

/-- Decode for ApplyTxError, codec.rs lines 32 to 41: collect the
array-iterated predicate errors. -/
def decodeApplyTxError (da : Dec α) (db : Dec β) (dc : Dec γ) :
    Dec (ApplyTxError α β γ) := fun s =>
  match arrayIterDec (decodeApplyConwayTxPredError da db dc) s with
  | .error e => .error e
  | .ok (errs, s) => .ok (ApplyTxError.mk errs, s)

/-- Decode for TxValidationError, codec.rs lines 23 to 30: the era is
decoded before the error list. -/
def decodeTxValidationError (da : Dec α) (db : Dec β) (dc : Dec γ) :
    Dec (TxValidationError α β γ) := fun s =>
  match arrayHeaderDec s with
  | .error e => .error e
  | .ok (_, s) =>
    match decodeShelleyBasedEra s with
    | .error e => .error e
    | .ok (era, s) =>
      match decodeApplyTxError da db dc s with
      | .error e => .error e
      | .ok (err, s) => .ok (.ShelleyTxValidationError err era, s)

/-- NodeClient::try_decode_error, transactions.rs lines 84 to 102: run
the top-level decode on the buffer and surface any failure as a
structured decoding error. -/
def tryDecodeError (da : Dec α) (db : Dec β) (dc : Dec γ) (buffer : List Byte) :
    Except String (TxValidationError α β γ) :=
  match decodeTxValidationError da db dc buffer with
  | .error e => .error e
  | .ok (v, _) => .ok v

/-! ## Renderers, from src/cbor/haskell_display.rs and the Display
implementations of src/cbor/haskell_types.rs. -/

/-- Model of the Rust slice join: empty for an empty list, otherwise the
first part followed by the separator-prefixed remaining parts. -/
def rustJoin (sep : String) : List String → String
  | [] => ""
  | x :: xs => x ++ String.join (xs.map (fun y => sep ++ y))

/-- Separator-interleaved concatenation, the plain recursive reading of
elements separated by a separator. -/
def sepJoin (sep : String) : List String → String
  | [] => ""
  | [x] => x
  | x :: y :: ys => x ++ sep ++ sepJoin sep (y :: ys)

theorem rustJoin_eq_sepJoin (sep : String) (l : List String) :
    rustJoin sep l = sepJoin sep l := by
  cases l with
  | nil => rfl
  | cons x xs =>
    induction xs generalizing x with
    | nil => simp [rustJoin, sepJoin, String.join]
    | cons y ys ih =>
      have hy := ih y
      simp only [rustJoin, String.join, List.map_cons, List.foldl_cons] at hy ⊢
      rw [sepJoin]
      rw [← hy]
      have : ∀ (a b : String) (zs : List String),
          List.foldl (fun r s => r ++ s) (a ++ b) zs =
            a ++ List.foldl (fun r s => r ++ s) b zs := by
        intro a b zs
        induction zs generalizing b with
        | nil => simp
        | cons z zs ihz => simp only [List.foldl_cons, String.append_assoc, ihz]
      calc x ++ List.foldl (fun r s => r ++ s) ("" ++ (sep ++ y)) (ys.map (fun s => sep ++ s))
          = x ++ ((sep ++ y) ++ List.foldl (fun r s => r ++ s) "" (ys.map (fun s => sep ++ s))) := by
            rw [show ("" ++ (sep ++ y)) = ((sep ++ y) ++ "") by simp,
              this (sep ++ y) "" (ys.map (fun s => sep ++ s))]
        _ = x ++ sep ++ (y ++ List.foldl (fun r s => r ++ s) "" (ys.map (fun s => sep ++ s))) := by
            simp [String.append_assoc]

/-- Display for DisplayCoin, haskell_types.rs lines 646 to 650. -/
def displayDisplayCoin (c : DisplayCoin) : String := "Coin " ++ toString c.coin

/-- HaskellDisplay for KeyHash, haskell_display.rs lines 366 to 370. -/
def keyHashToHaskellStr (kh : KeyHash) : String :=
  "KeyHash \x7bunKeyHash = \"" ++ hexEncode kh.bytes ++ "\"\x7d"

/-- HaskellDisplay for signed integers, haskell_display.rs lines 714 to
731: negative values are parenthesized. -/
def intToHaskellStr (i : Int) : String :=
  if 0 ≤ i then toString i else "(" ++ toString i ++ ")"

/-- HaskellDisplay for Vec, haskell_display.rs lines 738 to 761: the
non-empty-list rendering with a leading element, and the fromList
rendering when empty. -/
def vecToHaskellStr (shw : α → String) : List α → String
  | [] => "fromList []"
  | first :: rest =>
    let base := shw first ++ " :| ["
    let result :=
      if 0 < rest.length then
        (base ++ String.join (rest.map (fun item => shw item ++ " ,"))).dropRight 2
      else base
    result ++ "]"

/-- AsFromList for Vec, haskell_display.rs lines 969 to 981: elements
joined with a comma and no space inside fromList brackets. -/
def asFromList (shw : α → String) (l : List α) : String :=
  "fromList [" ++ rustJoin "," (l.map shw) ++ "]"

/-- HaskellDisplay for HashMap, haskell_display.rs lines 692 to 706:
entries are rendered as parenthesized pairs joined with a comma and a
space.  The iteration order of the Rust HashMap is modelled by the order
of the entry list. -/
def hashMapToHaskellStr (sk : κ → String) (sv : ν → String) (m : List (κ × ν)) : String :=
  "fromList [" ++
    rustJoin ", " (m.map (fun p => "(" ++ sk p.1 ++ "," ++ sv p.2 ++ ")")) ++ "]"

/-- HaskellDisplay for KeyValuePairs, haskell_display.rs lines 1090 to
1103: entries are rendered as parenthesized pairs joined with a comma
and a space, in stored order. -/
def keyValuePairsToHaskellStr (sk : κ → String) (sv : ν → String) (m : List (κ × ν)) : String :=
  "fromList [" ++
    rustJoin ", " (m.map (fun p => "(" ++ sk p.1 ++ "," ++ sv p.2 ++ ")")) ++ "]"

/-- HaskellDisplay for StrictMaybe, haskell_display.rs lines 1522 to
1546: the present value is parenthesized unless its type passes the
is_primitive test, which is the isPrim argument of this
monomorphization. -/
def strictMaybeToHaskellStr (isPrim : Bool) (shw : α → String) : StrictMaybe α → String
  | .Just v => if isPrim then "SJust " ++ shw v else "SJust (" ++ shw v ++ ")"
  | .Nothing => "SNothing"

/-- HaskellDisplay for Option, haskell_display.rs lines 424 to 448, the
same rendering as StrictMaybe. -/
def optionToHaskellStr (isPrim : Bool) (shw : α → String) : Option α → String
  | some v => if isPrim then "SJust " ++ shw v else "SJust (" ++ shw v ++ ")"
  | none => "SNothing"

/-- Character mapping of the ConwayMempoolFailure Display arm,
haskell_types.rs lines 152 to 168. -/
def mempoolText (e : String) : String :=
  String.join (e.data.map (fun c =>
    if c.toNat ≤ 127 then String.singleton c
    else "\"\\" ++ toString c.toNat ++ "\""))

/-- Display for ApplyConwayTxPredError, haskell_types.rs lines 132 to
171, parametric in the renderers of the three nested failure
families. -/
def displayApplyConwayTxPredError (sa : α → String) (sb : β → String) (sc : γ → String) :
    ApplyConwayTxPredError α β γ → String
  | .ConwayUtxowFailure e => "ConwayUtxowFailure (" ++ sa e ++ ")"
  | .ConwayCertsFailure e => "ConwayCertsFailure (" ++ sb e ++ ")"
  | .ConwayGovFailure e => "ConwayGovFailure (" ++ sc e ++ ")"
  | .ConwayWdrlNotDelegatedToDRep v =>
    "ConwayWdrlNotDelegatedToDRep (" ++ vecToHaskellStr keyHashToHaskellStr v ++ ")"
  | .ConwayTreasuryValueMismatch c1 c2 =>
    "ConwayTreasuryValueMismatch (" ++ displayDisplayCoin c1 ++ ") (" ++
      displayDisplayCoin c2 ++ ")"
  | .ConwayTxRefScriptsSizeTooBig s1 s2 =>
    "ConwayTxRefScriptsSizeTooBig " ++ intToHaskellStr s1 ++ " " ++ intToHaskellStr s2
  | .ConwayMempoolFailure e =>
    let t := mempoolText e
    "ConwayMempoolFailure " ++ (if 0 < t.length then t else "")

/-! ## JSON envelope, from the cardano-submit-api mimicking types of
haskell_types.rs and NodeClient::generate_error_response. -/

/-- EraMismatch, haskell_types.rs lines 606 to 610. -/
structure EraMismatch where
  ledger : String
  other : String

/-- TxValidationErrorInCardanoMode, haskell_types.rs lines 782 to 787. -/
inductive TxValidationErrorInCardanoMode (α β γ : Type) where
  | TxValidationErrorInCardanoMode (e : TxValidationError α β γ)
  | EraMismatch (e : EraMismatch)

/-- TxCmdError, haskell_types.rs lines 769 to 775. -/
inductive TxCmdError (α β γ : Type) where
  | SocketEnvError (s : String)
  | TxReadError (es : List String)
  | TxCmdTxSubmitValidationError (e : TxValidationErrorInCardanoMode α β γ)

/-- TxSubmitFail, haskell_types.rs lines 758 to 766. -/
inductive TxSubmitFail (α β γ : Type) where
  | TxSubmitDecodeHex
  | TxSubmitEmpty
  | TxSubmitDecodeFail (e : String)
  | TxSubmitBadTx (s : String)
  | TxSubmitFail (e : TxCmdError α β γ)

/-- NodeClient::generate_error_response, transactions.rs lines 104 to
114. -/
def generateErrorResponse (e : TxValidationError α β γ) : TxSubmitFail α β γ :=
  .TxSubmitFail (.TxCmdTxSubmitValidationError (.TxValidationErrorInCardanoMode e))

/-- Content of the error array of the serialized JSON envelope: the
serde serialization renders each predicate error through its Display
string (SerializeDisplay), nested inside the fixed tag and contents
fields.  Returns none for envelope variants without a validation
error. -/
def jsonErrorStrings (sa : α → String) (sb : β → String) (sc : γ → String) :
    TxSubmitFail α β γ → Option (List String)
  | .TxSubmitFail (.TxCmdTxSubmitValidationError (.TxValidationErrorInCardanoMode v)) =>
    match v with
    | .ShelleyTxValidationError err _ =>
      some (err.errors.map (displayApplyConwayTxPredError sa sb sc))
    | .ByronTxValidationError err =>
      some (err.errors.map (displayApplyConwayTxPredError sa sb sc))
  | _ => none

/-! ## Certificate rendering, from src/cbor/haskell_display.rs lines
1426 to 1461.  The rendering of ConwayTxCert is a partial function: the
pool and governance arms of the source are todo macros, which panic at
run time; the none result of the model stands for that panic. -/

/-- StakeCredential of the pallas dependency: a key hash or a script
hash, each carrying raw hash bytes. -/
inductive StakeCredential where
  | AddrKeyhash (h : List Byte)
  | ScriptHash (h : List Byte)
deriving DecidableEq

/-- Delegatee, referenced by codec.rs.  Modelled from the spec: only the
stake-pool delegation constructor appears in the sources, and its
rendering is a fixed placeholder. -/
inductive Delegatee where
  | DelegStake (h : List Byte)
deriving DecidableEq

/-- PoolCert, codec.rs usage: a newtype over a placeholder string. -/
structure PoolCert where
  val : String
deriving DecidableEq

/-- ConwayGovCert.  Modelled from the spec: its payload never reaches a
rendering rule in the sources. -/
inductive ConwayGovCert where
  | mk
deriving DecidableEq

/-- ConwayDelegCert, as used by codec.rs lines 400 to 485 and rendered
at haskell_display.rs lines 1438 to 1454. -/
inductive ConwayDelegCert where
  | ConwayRegCert (cred : StakeCredential) (dep : Option DisplayCoin)
  | ConwayUnRegCert (cred : StakeCredential) (dep : Option DisplayCoin)
  | ConwayDelegCert (cred : StakeCredential) (d : Delegatee)
  | ConwayRegDelegCert (cred : StakeCredential) (d : Delegatee) (dep : Option DisplayCoin)
deriving DecidableEq

/-- ConwayTxCert, as used by codec.rs lines 400 to 478. -/
inductive ConwayTxCert where
  | ConwayTxCertDeleg (c : ConwayDelegCert)
  | ConwayTxCertPool (c : PoolCert)
  | ConwayTxCertGov (c : ConwayGovCert)
deriving DecidableEq

/-- KeyHashObj rendering of raw hash bytes, haskell_display.rs lines 913
to 937. -/
def keyHashObjOfBytes (b : List Byte) : String :=
  "KeyHashObj (KeyHash \x7bunKeyHash = \"" ++ hexEncode b ++ "\"\x7d)"

/-- ScriptHashObj rendering of raw hash bytes, haskell_display.rs lines
927 to 944. -/
def scriptHashObjOfBytes (b : List Byte) : String :=
  "ScriptHashObj (ScriptHash \"" ++ hexEncode b ++ "\")"

/-- HaskellDisplay for StakeCredential, haskell_display.rs lines 670 to
679. -/
def stakeCredentialToHaskellStr : StakeCredential → String
  | .AddrKeyhash h => keyHashObjOfBytes h
  | .ScriptHash h => scriptHashObjOfBytes h

/-- HaskellDisplay for Delegatee, haskell_display.rs lines 1455 to 1461:
a fixed placeholder string for every value. -/
def delegateeToHaskellStr (_ : Delegatee) : String := "Delegatee not implemented"

/-- HaskellDisplay for ConwayDelegCert, haskell_display.rs lines 1438 to
1454; the credential is parenthesized by the default to_haskell_str_p
and the deposit uses the Option rendering with a non-primitive
payload. -/
def conwayDelegCertToHaskellStr : ConwayDelegCert → String
  | .ConwayRegCert cred dep =>
    "ConwayRegCert (" ++ stakeCredentialToHaskellStr cred ++ ") " ++
      optionToHaskellStr false displayDisplayCoin dep
  | .ConwayUnRegCert cred dep =>
    "ConwayUnRegCert (" ++ stakeCredentialToHaskellStr cred ++ ") " ++
      optionToHaskellStr false displayDisplayCoin dep
  | .ConwayDelegCert cred d =>
    "ConwayDelegCert (" ++ stakeCredentialToHaskellStr cred ++ ") " ++
      delegateeToHaskellStr d
  | .ConwayRegDelegCert cred _ dep =>
    "ConwayRegDelegCert (" ++ stakeCredentialToHaskellStr cred ++ ") " ++
      optionToHaskellStr false displayDisplayCoin dep

/-- HaskellDisplay for ConwayTxCert, haskell_display.rs lines 1426 to
1436.  The delegation arm renders through ConwayDelegCert; the pool and
governance arms are todo macros in the source, which panic, modelled
here by none. -/
def conwayTxCertToHaskellStr : ConwayTxCert → Option String
  | .ConwayTxCertDeleg c => some ("ConwayTxCertDeleg (" ++ conwayDelegCertToHaskellStr c ++ ")")
  | .ConwayTxCertPool _ => none
  | .ConwayTxCertGov _ => none

/-! ## Text escaper, from src/cbor/haskells_show_string.rs lines 4 to 98.
Characters are represented by their Unicode code points; the Rust char
comparisons of the source are comparisons of scalar values. -/

/-- Octal digit predicate of the source (is_oct_digit). -/
def isOctDigitCode (m : Nat) : Bool := 48 ≤ m && m ≤ 55

/-- Decimal digit predicate of the source (is_ascii_digit). -/
def isDigitCode (m : Nat) : Bool := 48 ≤ m && m ≤ 57

/-- Octal rendering of a code, as produced by the Rust octal format. -/
def octalString (n : Nat) : String := String.mk (Nat.toDigits 8 n)

/-- Abbreviation table of the source match at lines 27 to 55; codes
handled by the earlier named arms are absent, and absent codes map to
the empty string. -/
def implAbbrevTable : List (Nat × String) :=
  [(0, "NUL"), (1, "SOH"), (2, "STX"), (3, "ETX"), (4, "EOT"), (5, "ENQ"), (6, "ACK"),
   (14, "SO"), (15, "SI"), (16, "DLE"), (17, "DC1"), (18, "DC2"), (19, "DC3"), (20, "DC4"),
   (21, "NAK"), (22, "SYN"), (23, "ETB"), (24, "CAN"), (25, "EM"), (26, "SUB"), (27, "ESC"),
   (28, "FS"), (29, "GS"), (30, "RS"), (31, "US"), (127, "DEL")]

/-- Abbreviation of a code, the empty string when absent. -/
def implAbbrev (n : Nat) : String := (implAbbrevTable.lookup n).getD ""

/-- Escape of one character given the following character, mirroring one
iteration of the source loop: the early named arms, the printable
pass-through, the abbreviation table with the SO disambiguation, the
octal escape with the octal-digit disambiguation, and the decimal
escape with the digit disambiguation. -/
def hsEscapeChar (c : Nat) (peek : Option Nat) : String :=
  if c = 0x5c then "\\\\"
  else if c = 0x22 then "\\\""
  else if c = 0x07 then "\\a"
  else if c = 0x08 then "\\b"
  else if c = 0x0c then "\\f"
  else if c = 0x0a then "\\n"
  else if c = 0x0d then "\\r"
  else if c = 0x09 then "\\t"
  else if c = 0x0b then "\\v"
  else if 0x20 ≤ c ∧ c ≤ 0x7e then String.singleton (Char.ofNat c)
  else
    let abbreviation := implAbbrev c
    if abbreviation ≠ "" then
      "\\" ++ abbreviation ++
        (match peek with
         | some m => if abbreviation = "SO" ∧ m = 72 then "\\&" else ""
         | none => "")
    else if c ≤ 0x7f then
      "\\" ++ octalString (c % 256) ++
        (match peek with
         | some m => if isOctDigitCode m then "\\&" else ""
         | none => "")
    else
      "\\" ++ toString c ++
        (match peek with
         | some m => if isDigitCode m then "\\&" else ""
         | none => "")

/-- Body of the escaped string: every character escaped with one
character of lookahead. -/
def hsEscapeBody : List Nat → String
  | [] => ""
  | c :: rest => hsEscapeChar c rest.head? ++ hsEscapeBody rest

/-- haskell_show_string, haskells_show_string.rs lines 4 to 98: the
escaped body wrapped in double quotes. -/
def haskellShowString (s : List Nat) : String := "\"" ++ hsEscapeBody s ++ "\""

/-- Named-escape table as documented: every C0 control code and DEL has
a name (the one-letter names are the short escapes, the rest the
three-letter abbreviations). -/
def specNamedTable : List (Nat × String) :=
  [(0, "NUL"), (1, "SOH"), (2, "STX"), (3, "ETX"), (4, "EOT"), (5, "ENQ"), (6, "ACK"),
   (7, "a"), (8, "b"), (9, "t"), (10, "n"), (11, "v"), (12, "f"), (13, "r"),
   (14, "SO"), (15, "SI"), (16, "DLE"), (17, "DC1"), (18, "DC2"), (19, "DC3"), (20, "DC4"),
   (21, "NAK"), (22, "SYN"), (23, "ETB"), (24, "CAN"), (25, "EM"), (26, "SUB"), (27, "ESC"),
   (28, "FS"), (29, "GS"), (30, "RS"), (31, "US"), (127, "DEL")]

/-- Disambiguation marker after a numeric escape: inserted exactly when
the next character is a decimal digit. -/
def specAmpNumeric (peek : Option Nat) : String :=
  match peek with
  | some m => if isDigitCode m then "\\&" else ""
  | none => ""

/-- Escape of one character as the specification documents it, by
character class: quote and backslash escaped; printable ASCII passed
through; C0 control codes and DEL through the named-escape table with
the SO-before-H disambiguation; remaining codes at most 127 in octal
and codes above 127 in decimal, each with the digit
disambiguation. -/
def specEscapeChar (c : Nat) (peek : Option Nat) : String :=
  if c = 0x22 then "\\\""
  else if c = 0x5c then "\\\\"
  else if 0x20 ≤ c ∧ c ≤ 0x7e then String.singleton (Char.ofNat c)
  else
    match specNamedTable.lookup c with
    | some name =>
      "\\" ++ name ++
        (match peek with
         | some m => if name = "SO" ∧ m = 72 then "\\&" else ""
         | none => "")
    | none =>
      if c ≤ 0x7f then "\\" ++ octalString c ++ specAmpNumeric peek
      else "\\" ++ toString c ++ specAmpNumeric peek

/-- Documented escaped body. -/
def specEscapeBody : List Nat → String
  | [] => ""
  | c :: rest => specEscapeChar c rest.head? ++ specEscapeBody rest

/-- Documented escaped string form. -/
def specShowString (s : List Nat) : String := "\"" ++ specEscapeBody s ++ "\""

theorem lookup_none_of_keys_lt (t : List (Nat × String)) (c : Nat)
    (h : ∀ p ∈ t, p.1 < 128) (hc : 128 ≤ c) : t.lookup c = none := by
  induction t with
  | nil => rfl
  | cons q t ih =>
    have hq : q.1 < 128 := h q (by simp)
    have hb : (c == q.1) = false := by
      simp only [beq_eq_false_iff_ne]
      omega
    simp only [List.lookup, hb]
    exact ih (fun p hp => h p (by simp [hp]))

theorem hsEscapeChar_eq_spec (c : Nat) (p : Option Nat) :
    hsEscapeChar c p = specEscapeChar c p := by
  by_cases h1 : c < 32
  · interval_cases c <;> rcases p with _ | m <;> rfl
  · by_cases h2 : c = 127
    · subst h2
      rcases p with _ | m <;> rfl
    · by_cases h4 : c = 0x5c
      · subst h4
        rcases p with _ | m <;> rfl
      · by_cases h5 : c = 0x22
        · subst h5
          rcases p with _ | m <;> rfl
        · by_cases h3 : c ≤ 0x7e
          · have e1 : hsEscapeChar c p = String.singleton (Char.ofNat c) := by
              unfold hsEscapeChar
              rw [if_neg h4, if_neg h5, if_neg (show ¬c = 0x07 by omega),
                if_neg (show ¬c = 0x08 by omega), if_neg (show ¬c = 0x0c by omega),
                if_neg (show ¬c = 0x0a by omega), if_neg (show ¬c = 0x0d by omega),
                if_neg (show ¬c = 0x09 by omega), if_neg (show ¬c = 0x0b by omega),
                if_pos (show 0x20 ≤ c ∧ c ≤ 0x7e by omega)]
            have e2 : specEscapeChar c p = String.singleton (Char.ofNat c) := by
              unfold specEscapeChar
              rw [if_neg h5, if_neg h4, if_pos (show 0x20 ≤ c ∧ c ≤ 0x7e by omega)]
            rw [e1, e2]
          · have hc : 128 ≤ c := by omega
            have habbr : implAbbrev c = "" := by
              unfold implAbbrev
              rw [lookup_none_of_keys_lt implAbbrevTable c (by decide) hc]
              rfl
            have e1 : hsEscapeChar c p = "\\" ++ toString c ++ specAmpNumeric p := by
              unfold hsEscapeChar
              rw [if_neg h4, if_neg h5, if_neg (show ¬c = 0x07 by omega),
                if_neg (show ¬c = 0x08 by omega), if_neg (show ¬c = 0x0c by omega),
                if_neg (show ¬c = 0x0a by omega), if_neg (show ¬c = 0x0d by omega),
                if_neg (show ¬c = 0x09 by omega), if_neg (show ¬c = 0x0b by omega),
                if_neg (show ¬(0x20 ≤ c ∧ c ≤ 0x7e) by omega)]
              simp only [habbr]
              rw [if_neg (by simp), if_neg (show ¬c ≤ 0x7f by omega)]
              cases p <;> rfl
            have e2 : specEscapeChar c p = "\\" ++ toString c ++ specAmpNumeric p := by
              unfold specEscapeChar
              rw [if_neg h5, if_neg h4, if_neg (show ¬(0x20 ≤ c ∧ c ≤ 0x7e) by omega)]
              rw [lookup_none_of_keys_lt specNamedTable c (by decide) hc]
              rw [if_neg (show ¬c ≤ 0x7f by omega)]
            rw [e1, e2]

theorem hsEscapeBody_eq_spec (l : List Nat) : hsEscapeBody l = specEscapeBody l := by
  induction l with
  | nil => rfl
  | cons c rest ih =>
    simp only [hsEscapeBody, specEscapeBody, hsEscapeChar_eq_spec, ih]

theorem datatypeDec_cons (b : Nat) (tl : List Byte) :
    datatypeDec (b :: tl) = .ok (typeOfByte b, b :: tl) := rfl

theorem typeOfByte_u8 (b : Nat) (h : b ≤ 0x18) : typeOfByte b = .U8 := by
  unfold typeOfByte
  rw [if_pos h]

theorem typeOfByte_bytes (b : Nat) (h1 : 0x40 ≤ b) (h2 : b ≤ 0x5b) :
    typeOfByte b = .Bytes := by
  unfold typeOfByte
  rw [if_neg (show ¬b ≤ 0x18 by omega), if_neg (show ¬b = 0x19 by omega),
    if_neg (show ¬b = 0x1a by omega), if_neg (show ¬b = 0x1b by omega),
    if_neg (show ¬(0x20 ≤ b ∧ b ≤ 0x38) by omega), if_neg (show ¬b = 0x39 by omega),
    if_neg (show ¬b = 0x3a by omega), if_neg (show ¬b = 0x3b by omega),
    if_pos (show 0x40 ≤ b ∧ b ≤ 0x5b by omega)]

/-! ## Claim theorems. -/

/-- Rejection-reason bytes 8182068183051a000de7561a00080fd6 of the
treasury-value-mismatch example. -/
def c1bytes : List Byte :=
  [0x81, 0x82, 0x06, 0x81, 0x83, 0x05, 0x1a, 0x00, 0x0d, 0xe7, 0x56, 0x1a, 0x00, 0x08, 0x0f, 0xd6]

/-- Placeholder decoder for nested failure families that a decoding path
never reaches. -/
def decUnit : Dec Unit := fun _ => .error "nested decoder unused"

/-- Placeholder renderer for nested failure families that a rendering
path never reaches. -/
def showUnit : Unit → String := fun _ => ""

/-- Claim C1, counterexample: decoding the example byte sequence yields
the treasury-value-mismatch variant and a JSON error array with exactly
one string, but the first coin amount is 911190 (the value of hex
0x000de756), not the 910742 stated by the claim. -/
theorem c1_treasury_counterexample :
    (tryDecodeError decUnit decUnit decUnit c1bytes).map
      (fun e => jsonErrorStrings showUnit showUnit showUnit (generateErrorResponse e)) =
      .ok (some ["ConwayTreasuryValueMismatch (Coin 911190) (Coin 528342)"]) ∧
    "ConwayTreasuryValueMismatch (Coin 911190) (Coin 528342)" ≠
      "ConwayTreasuryValueMismatch (Coin 910742) (Coin 528342)" :=
  ⟨rfl, by decide⟩

/-- Claim C1, amended: for every choice of nested decoders and
renderers, the example byte sequence decodes to a ledger-application
failure wrapping the treasury-value-mismatch variant carrying the coin
amounts 911190 and 528342, and the rendered JSON envelope carries an
error array with exactly one string of the documented form with those
two amounts. -/
theorem c1_treasury_amended :
    ∀ (α β γ : Type) (da : Dec α) (db : Dec β) (dc : Dec γ)
      (sa : α → String) (sb : β → String) (sc : γ → String),
      tryDecodeError da db dc c1bytes =
        .ok (.ShelleyTxValidationError
          (ApplyTxError.mk [.ConwayTreasuryValueMismatch ⟨911190⟩ ⟨528342⟩])
          .ShelleyBasedEraConway) ∧
      jsonErrorStrings sa sb sc (generateErrorResponse
          ((.ShelleyTxValidationError
            (ApplyTxError.mk [.ConwayTreasuryValueMismatch ⟨911190⟩ ⟨528342⟩])
            .ShelleyBasedEraConway : TxValidationError α β γ))) =
        some ["ConwayTreasuryValueMismatch (Coin 911190) (Coin 528342)"] := by
  intro α β γ da db dc sa sb sc
  exact ⟨rfl, rfl⟩

/-- Claim C2, counterexample: in the DatumEnum context the discriminant
2 lies outside the recognized set, yet decoding succeeds and silently
substitutes the default NoDatum variant instead of failing. -/
theorem c2_datum_enum_counterexample :
    decodeDatumEnum [0x81, 0x02] = .ok (.NoDatum, []) := rfl

/-- Claim C2, amended: in every embedded enum decoding context except
DatumEnum, a discriminant outside the recognized set makes decoding fail
with a structured error naming the context and the discriminant;
DatumEnum instead maps every unrecognized discriminant to NoDatum. -/
theorem c2_discriminant_dispatch_amended (tag alen : Nat) (rest : List Byte)
    (htag : tag < 65536) (halen : alen < 18446744073709551616) :
    (tag ∉ ([1, 2, 3, 4, 5, 6, 7] : List Nat) →
      ∀ (α β γ : Type) (da : Dec α) (db : Dec β) (dc : Dec γ),
        decodeApplyConwayTxPredError da db dc (encArray alen ++ (encUInt tag ++ rest)) =
          .error ("unknown error tag while decoding ApplyTxPredError: " ++ toString tag)) ∧
    (tag ∉ ([1, 2, 3, 4, 5, 6] : List Nat) →
      decodeShelleyBasedEra (encArray alen ++ (encUInt tag ++ rest)) =
        .error ("unknown era while decoding ShelleyBasedEra: " ++ toString tag)) ∧
    (tag ∉ ([0, 1] : List Nat) →
      decodeNetwork (encUInt tag ++ rest) =
        .error ("unknown network while decoding Network: " ++ toString tag)) ∧
    (tag ∉ ([0, 1] : List Nat) →
      decodeCredential (encArray alen ++ (encUInt tag ++ rest)) =
        .error ("unknown tag while decoding Credential: " ++ toString tag)) ∧
    (tag ∉ ([0, 1, 2, 3, 4, 5] : List Nat) →
      decodeConwayGovCertPredFailure (encArray alen ++ (encUInt tag ++ rest)) =
        .error ("unknown error tag while decoding ConwayGovCertPredFailure: " ++
          toString tag)) ∧
    (tag ∉ ([0, 1] : List Nat) →
      decodeDatumEnum (encArray alen ++ (encUInt tag ++ rest)) = .ok (.NoDatum, rest)) := by
  refine ⟨?_, ?_, ?_, ?_, ?_, ?_⟩
  · intro hmem α β γ da db dc
    unfold decodeApplyConwayTxPredError
    simp only [arrayHeaderDec_enc alen (encUInt tag ++ rest) halen, u16dec_enc tag rest htag]
    split <;> simp_all
  · intro hmem
    unfold decodeShelleyBasedEra
    simp only [arrayHeaderDec_enc alen (encUInt tag ++ rest) halen, u16dec_enc tag rest htag]
    split <;> simp_all
  · intro hmem
    unfold decodeNetwork
    simp only [u16dec_enc tag rest htag]
    split <;> simp_all
  · intro hmem
    unfold decodeCredential
    simp only [arrayHeaderDec_enc alen (encUInt tag ++ rest) halen, u16dec_enc tag rest htag]
    split <;> simp_all
  · intro hmem
    unfold decodeConwayGovCertPredFailure
    simp only [arrayHeaderDec_enc alen (encUInt tag ++ rest) halen, u16dec_enc tag rest htag]
    split <;> simp_all
  · intro hmem
    unfold decodeDatumEnum
    simp only [arrayHeaderDec_enc alen (encUInt tag ++ rest) halen, u16dec_enc tag rest htag]
    split <;> simp_all

/-- Witness for the amended claim C2 at the discriminant 99 of the
specification example. -/
theorem c2_discriminant_dispatch_witness :
    decodeApplyConwayTxPredError decUnit decUnit decUnit
        (encArray 1 ++ (encUInt 99 ++ [])) =
      .error ("unknown error tag while decoding ApplyTxPredError: " ++ toString 99) ∧
    decodeDatumEnum (encArray 1 ++ (encUInt 99 ++ [])) = .ok (.NoDatum, []) := by
  have h := c2_discriminant_dispatch_amended 99 1 [] (by decide) (by decide)
  exact ⟨h.1 (by decide) Unit Unit Unit decUnit decUnit decUnit, h.2.2.2.2.2 (by decide)⟩

/-- Claim C3, code bug: the renderer is not total on well-formed decoded
trees.  The ConwayTxCert rendering arm for the pool certificate is a
todo macro in the source, which panics instead of producing a
clearly-marked placeholder string; the none result of the model records
that panic at the concrete decoded value produced by the certificate
decoder for pool certificates. -/
theorem c3_render_pool_panics :
    conwayTxCertToHaskellStr (.ConwayTxCertPool ⟨"todo1"⟩) = none ∧
    conwayTxCertToHaskellStr (.ConwayTxCertGov .mk) = none := ⟨rfl, rfl⟩

/-- Claim C4, code bug: the wire decode stage can panic instead of
returning a structured failure.  Decoding the empty byte string 0x40 as
a RewardAccountFielded hex-encodes it to the empty string, and the
constructor byte-slices that string at index 2, which panics; the ok
none result records the panic escaping the decoder, and no structured
error is produced. -/
theorem c4_reward_account_decode_panics :
    decodeRewardAccountFielded [0x40] = .ok (none, []) ∧
    rewardAccountFieldedNew (hexEncode []) = none := ⟨rfl, rfl⟩

/-- Claim C5: for every sequence of character codes, the text escaper
produces exactly the documented Haskell-Show escape form per character
class, including the exact disambiguation-marker rule. -/
theorem c5_show_string_matches_documented_form :
    ∀ l : List Nat, haskellShowString l = specShowString l := by
  intro l
  unfold haskellShowString specShowString
  rw [hsEscapeBody_eq_spec]

/-- Claim C6: a zero-length array decodes to the absent state and
renders as SNothing, and a one-length array containing a value decodes
to the present state holding that value and renders as SJust followed by
the rendering of the value, parenthesized exactly when the payload type
fails the primitivity test of the renderer. -/
theorem c6_optional_field_roundtrip (α : Type) (d : Dec α) (shw : α → String)
    (isPrim : Bool) (rest : List Byte) :
    decodeStrictMaybe d (encArray 0 ++ rest) = .ok (.Nothing, rest) ∧
    strictMaybeToHaskellStr isPrim shw .Nothing = "SNothing" ∧
    ∀ (v : α) (rest2 : List Byte), d rest = .ok (v, rest2) →
      decodeStrictMaybe d (encArray 1 ++ rest) = .ok (.Just v, rest2) ∧
      strictMaybeToHaskellStr isPrim shw (.Just v) =
        (if isPrim then "SJust " ++ shw v else "SJust (" ++ shw v ++ ")") := by
  refine ⟨?_, rfl, ?_⟩
  · unfold decodeStrictMaybe
    simp only [arrayHeaderDec_enc 0 rest (by omega)]
    simp
  · intro v rest2 hd
    refine ⟨?_, rfl⟩
    unfold decodeStrictMaybe
    simp only [arrayHeaderDec_enc 1 rest (by omega), hd]
    simp

/-- Witness for claim C6 at a one-element array holding the coin 5. -/
theorem c6_optional_field_roundtrip_witness :
    decodeStrictMaybe decodeDisplayCoin (encArray 1 ++ encUInt 5) = .ok (.Just ⟨5⟩, []) ∧
    strictMaybeToHaskellStr false displayDisplayCoin (.Just (⟨5⟩ : DisplayCoin)) =
      "SJust (Coin 5)" := by
  have h := (c6_optional_field_roundtrip DisplayCoin decodeDisplayCoin displayDisplayCoin
    false (encUInt 5)).2.2 ⟨5⟩ [] rfl
  exact ⟨h.1, h.2.trans (by decide)⟩

/-- Claim C7: the finite-set wrapper fails with a structured error on
every leading tag other than 258 and otherwise decodes the wrapped
content with the nested element decoding; the embedded-document wrapper
fails with a structured error on every leading tag other than 24 and
otherwise yields the wrapped byte string, which the caller hands to an
independent top-level decode starting at position zero of those
bytes. -/
theorem c7_tag_wrapped_values (t : Nat) (ht : t < 18446744073709551616) (rest : List Byte)
    (α β : Type) (dT : Dec α) (dE : Dec β) :
    (t ≠ 258 →
      decodeCustomSet258 dT (encTag t ++ rest) =
        .error ("unexpected tag while decoding CustomSet258: " ++ toString t)) ∧
    (decodeCustomSet258 dT (encTag 258 ++ rest) =
      match arrayIterDec dT rest with
      | .error e => .error e
      | .ok (v, s) => .ok (CustomSet258.mk v, s)) ∧
    (t ≠ 24 →
      decodeCborBytes bytesDec (encTag t ++ rest) =
        .error ("unexpected tag while decoding CustomSet258: " ++ toString t)) ∧
    (∀ bs : List Byte, bs.length < 18446744073709551616 →
      decodeCborBytes bytesDec (encTag 24 ++ (encBytes bs ++ rest)) =
        .ok (CborBytes.mk bs, rest)) ∧
    (∀ bs : List Byte, bs.length < 18446744073709551616 →
      decodeEmbeddedDocument dE (encTag 24 ++ (encBytes bs ++ rest)) =
        match dE bs with
        | .error e => .error e
        | .ok (v, _) => .ok (v, rest)) := by
  refine ⟨?_, ?_, ?_, ?_, ?_⟩
  · intro hne
    unfold decodeCustomSet258
    simp only [tagDec_enc t rest ht]
    rw [if_pos hne]
  · unfold decodeCustomSet258
    simp only [tagDec_enc 258 rest (by omega)]
    rw [if_neg (by decide)]
  · intro hne
    unfold decodeCborBytes
    simp only [tagDec_enc t rest ht]
    rw [if_pos hne]
  · intro bs hbs
    unfold decodeCborBytes
    simp only [tagDec_enc 24 (encBytes bs ++ rest) (by omega)]
    rw [if_neg (by decide)]
    simp only [bytesDec_enc bs rest hbs]
  · intro bs hbs
    unfold decodeEmbeddedDocument
    have h24 : decodeCborBytes bytesDec (encTag 24 ++ (encBytes bs ++ rest)) =
        .ok (CborBytes.mk bs, rest) := by
      unfold decodeCborBytes
      simp only [tagDec_enc 24 (encBytes bs ++ rest) (by omega)]
      rw [if_neg (by decide)]
      simp only [bytesDec_enc bs rest hbs]
    simp only [h24]

/-- Witness for claim C7 at tag 99 with a two-byte wrapped document. -/
theorem c7_tag_wrapped_values_witness :
    decodeCustomSet258 u8dec (encTag 99 ++ []) =
      .error ("unexpected tag while decoding CustomSet258: " ++ toString 99) ∧
    decodeCborBytes bytesDec (encTag 24 ++ (encBytes [9, 8] ++ [])) =
      .ok (CborBytes.mk [9, 8], []) ∧
    decodeEmbeddedDocument u8dec (encTag 24 ++ (encBytes [9, 8] ++ [])) = .ok (9, []) := by
  have h := c7_tag_wrapped_values 99 (by decide) [] Nat Nat u8dec u8dec
  refine ⟨h.1 (by decide), h.2.2.2.1 [9, 8] (by decide), ?_⟩
  have h2 := h.2.2.2.2 [9, 8] (by decide)
  exact h2.trans rfl

/-- Claim C8, counterexample: the bytes of the canonical unsigned
integer 1000 are probed as the U16 type, and the decoder fails with the
structured probe error instead of taking the integer decode path. -/
theorem c8_purpose_probe_counterexample :
    encUInt 1000 = [0x19, 0x03, 0xe8] ∧
    decodePurposeAs [0x19, 0x03, 0xe8] =
      .error "unknown datatype while decoding PurposeAs: U16" := ⟨by decide, rfl⟩

/-- Claim C8, amended: the decoder probes the type of the next value
without consuming it; it takes the integer path exactly when the probed
type is U8, that is when the unsigned integer lies below 256, the
byte-string path when the probed type is a definite-length byte string,
and fails with a structured error naming the probed type otherwise,
including the wider unsigned-integer encodings U16, U32 and U64. -/
theorem c8_purpose_probe_amended (n : Nat) (rest : List Byte) :
    (n < 256 → decodePurposeAs (encUInt n ++ rest) = .ok (.Ix n, rest)) ∧
    (∀ bs : List Byte, bs.length < 18446744073709551616 →
      decodePurposeAs (encBytes bs ++ rest) = .ok (.Item bs, rest)) ∧
    (256 ≤ n → n < 65536 →
      decodePurposeAs (encUInt n ++ rest) =
        .error ("unknown datatype while decoding PurposeAs: " ++ cborTypeDebugStr .U16)) ∧
    (65536 ≤ n → n < 4294967296 →
      decodePurposeAs (encUInt n ++ rest) =
        .error ("unknown datatype while decoding PurposeAs: " ++ cborTypeDebugStr .U32)) ∧
    (4294967296 ≤ n → n < 18446744073709551616 →
      decodePurposeAs (encUInt n ++ rest) =
        .error ("unknown datatype while decoding PurposeAs: " ++ cborTypeDebugStr .U64)) := by
  refine ⟨?_, ?_, ?_, ?_, ?_⟩
  · intro hn
    unfold decodePurposeAs
    have hd : datatypeDec (encUInt n ++ rest) = .ok (.U8, encUInt n ++ rest) := by
      unfold encUInt encHead
      split_ifs with h1 h2
      · simp only [List.cons_append, List.nil_append]
        rw [datatypeDec_cons, typeOfByte_u8 (32 * 0 + n) (by omega)]
      · simp only [List.cons_append]
        rfl
    simp only [hd, u64dec_enc n rest (by omega)]
  · intro bs hbs
    unfold decodePurposeAs
    have hd : datatypeDec (encBytes bs ++ rest) = .ok (.Bytes, encBytes bs ++ rest) := by
      unfold encBytes encHead
      split_ifs with h1 h2 h3 h4
      · simp only [List.append_assoc, List.cons_append, List.nil_append]
        rw [datatypeDec_cons, typeOfByte_bytes (32 * 2 + bs.length) (by omega) (by omega)]
      · simp only [List.append_assoc, List.cons_append]
        rfl
      · simp only [List.append_assoc, List.cons_append]
        rfl
      · simp only [List.append_assoc, List.cons_append]
        rfl
      · simp only [List.append_assoc, List.cons_append]
        rfl
    simp only [hd, bytesDec_enc bs rest hbs]
  · intro h1 h2
    unfold decodePurposeAs
    have hd : datatypeDec (encUInt n ++ rest) = .ok (.U16, encUInt n ++ rest) := by
      unfold encUInt encHead
      split_ifs with g1 g2
      · omega
      · omega
      · simp only [List.cons_append]
        rfl
    simp only [hd]
  · intro h1 h2
    unfold decodePurposeAs
    have hd : datatypeDec (encUInt n ++ rest) = .ok (.U32, encUInt n ++ rest) := by
      unfold encUInt encHead
      split_ifs with g1 g2 g3 g4
      · omega
      · omega
      · omega
      · simp only [List.cons_append]
        rfl
    simp only [hd]
  · intro h1 h2
    unfold decodePurposeAs
    have hd : datatypeDec (encUInt n ++ rest) = .ok (.U64, encUInt n ++ rest) := by
      unfold encUInt encHead
      split_ifs with g1 g2 g3 g4
      · omega
      · omega
      · omega
      · omega
      · simp only [List.cons_append]
        rfl
    simp only [hd]

/-- Witness for the amended claim C8 at the index 200, the item bytes
010203 and the out-of-range index 1000. -/
theorem c8_purpose_probe_witness :
    decodePurposeAs (encUInt 200 ++ []) = .ok (.Ix 200, []) ∧
    decodePurposeAs (encBytes [1, 2, 3] ++ []) = .ok (.Item [1, 2, 3], []) ∧
    decodePurposeAs (encUInt 1000 ++ []) =
      .error ("unknown datatype while decoding PurposeAs: " ++ cborTypeDebugStr .U16) := by
  have h := c8_purpose_probe_amended 200 []
  have h2 := c8_purpose_probe_amended 1000 []
  exact ⟨h.1 (by decide), h.2.1 [1, 2, 3] (by decide), h2.2.2.1 (by decide) (by decide)⟩

/-- Claim C9, counterexample: map-like collections are rendered with a
comma and a space between entries, not the comma-no-space separation
stated by the claim. -/
theorem c9_fromlist_separator_counterexample :
    keyValuePairsToHaskellStr displayDisplayCoin displayDisplayCoin
        [(⟨1⟩, ⟨2⟩), (⟨3⟩, ⟨4⟩)] =
      "fromList [(Coin 1,Coin 2), (Coin 3,Coin 4)]" ∧
    "fromList [(Coin 1,Coin 2), (Coin 3,Coin 4)]" ≠
      "fromList [(Coin 1,Coin 2),(Coin 3,Coin 4)]" := ⟨rfl, by decide⟩

/-- Claim C9, amended: finite-set contents render as fromList brackets
with elements separated by a comma and no space; the map-like
collections render as fromList brackets of parenthesized pairs
separated by a comma and a space; an empty collection renders exactly
as fromList with empty brackets in every case. -/
theorem c9_fromlist_rendering_amended (α κ ν : Type) (shw : α → String)
    (sk : κ → String) (sv : ν → String) (l : List α) (m : List (κ × ν)) :
    asFromList shw l = "fromList [" ++ sepJoin "," (l.map shw) ++ "]" ∧
    asFromList shw ([] : List α) = "fromList []" ∧
    hashMapToHaskellStr sk sv m =
      "fromList [" ++
        sepJoin ", " (m.map (fun p => "(" ++ sk p.1 ++ "," ++ sv p.2 ++ ")")) ++ "]" ∧
    hashMapToHaskellStr sk sv ([] : List (κ × ν)) = "fromList []" ∧
    keyValuePairsToHaskellStr sk sv m =
      "fromList [" ++
        sepJoin ", " (m.map (fun p => "(" ++ sk p.1 ++ "," ++ sv p.2 ++ ")")) ++ "]" ∧
    keyValuePairsToHaskellStr sk sv ([] : List (κ × ν)) = "fromList []" := by
  refine ⟨?_, rfl, ?_, rfl, ?_, rfl⟩
  · unfold asFromList
    rw [rustJoin_eq_sepJoin]
  · unfold hashMapToHaskellStr
    rw [rustJoin_eq_sepJoin]
  · unfold keyValuePairsToHaskellStr
    rw [rustJoin_eq_sepJoin]

/-- Claim C10: when decoding the optionality wrapper, every
definite-length array header of length at least one selects the present
case and only the first element is decoded, leaving the rest of the
input exactly as the element decoder leaves it; an indefinite-length
array header selects the absent case. -/
theorem c10_optionality_header_semantics (α : Type) (d : Dec α) (n : Nat)
    (rest : List Byte) (hn : n < 18446744073709551616) :
    (1 ≤ n →
      decodeStrictMaybe d (encArray n ++ rest) =
        match d rest with
        | .error e => .error e
        | .ok (v, s) => .ok (.Just v, s)) ∧
    decodeStrictMaybe d (0x9f :: rest) = .ok (.Nothing, rest) := by
  refine ⟨?_, rfl⟩
  intro h1
  unfold decodeStrictMaybe
  simp only [arrayHeaderDec_enc n rest hn]
  rw [if_pos (show 0 < n by omega)]

/-- Witness for claim C10 at a three-element array whose later elements
stay unconsumed. -/
theorem c10_optionality_header_semantics_witness :
    decodeStrictMaybe u8dec (encArray 3 ++ [7, 8, 9]) = .ok (.Just 7, [8, 9]) ∧
    decodeStrictMaybe u8dec (0x9f :: [7, 8, 9]) = .ok (.Nothing, [7, 8, 9]) := by
  have h := c10_optionality_header_semantics Nat u8dec 3 [7, 8, 9] (by decide)
  exact ⟨(h.1 (by decide)).trans rfl, h.2⟩

end Blockfrost
